import Mathlib

/-!
# Verification of the gomaster gamer-pool / game-actor core

Shallow embedding of the `yagoggame/gomaster` Go repository:

* `game/field/field.go`    — the board engine (`Field`, `New`, `Move`, `State`);
* `game/game_internal.go`  — the game actor's command handlers and event loop
  (`join`, `waitBegin`, `waitTurn`, `isMyTurn`, `makeTurn`, `leaveGame`,
  `reportOnChan`, `isMyTurnCalc`, `run`, `recoverAsErr`);
* `pool_internal.go`       — the pool's command handlers (`addGamer`, `rmGamer`,
  `getGamer`, `listGamers`, `joinOtherGame`, `startOwnGame`, `joinGame`);
* `pool.go` / `game.go`    — the public wrappers around the two command queues.

Go maps are embedded as association lists in insertion order (Go iteration
order is unspecified; every property proved below is insensitive to the
chosen order).  Go channels are embedded as abstract channel identifiers
(`Nat`); the actor's channel activity is recorded as an explicit event list.
`float64` is embedded as `ℚ` (the komi arithmetic at issue is exact).
The `rand.Intn(2)+1` colour draw is an explicit parameter of the join command.
-/

namespace Gomaster

/-- `type ChipColour int` from `igame`/`igogame`. -/
abbrev ChipColour := Int

/-- `NoColour ChipColour = 0`. -/
def NoColour : ChipColour := 0
/-- `Black = 1`. -/
def Black : ChipColour := 1
/-- `White = 2`. -/
def White : ChipColour := 2

/-- `TurnData` — a gamer's turn data, 1-based coordinates. -/
structure TurnData where
  X : Int
  Y : Int
deriving DecidableEq, Repr

/-- The distinguishable error kinds of the repository (callers match by kind
via `errors.Is`; wrapping with `fmt.Errorf` keeps the kind detectable, so an
error value is embedded as its kind). -/
inductive GErr where
  | NilGamer | IDNotFound | IDOccupied | GamerOccupied | GamerGameStart
  | NoPlace | GameOver | UnknownID | NotYourTurn | WrongTurn
  | OtherGamerLeft | GameDestroyed | Cancellation | ResourceNotAvailable
  | FieldSize | Colour | Position | Occupied | NoChips
  | NoVacantGamer
deriving DecidableEq, Repr

/-! ## Board engine: `game/field/field.go` -/

/-- `whiteMax = 180`. -/
def whiteMax : Int := 180
/-- `blackMax = 181`. -/
def blackMax : Int := 181
/-- `minSize = 1`. -/
def minSize : Int := 1
/-- `maxSize = 19`. -/
def maxSize : Int := 19

/-- Pointwise update of a Go-map-as-function. -/
def updFn {β : Type} (f : ChipColour → β) (x : ChipColour) (v : β) : ChipColour → β :=
  fun y => if y = x then v else f y

/-- `Field` — position of gamers on the game desk.  `field [][]ChipColour` is
row-major: the cell at 1-based turn data `(X, Y)` is `grid[Y-1][X-1]`.
`chipsNumber map[ChipColour]int` reads of an absent key give the Go zero
value `0`, so it is embedded as a total function. -/
structure Field where
  grid : List (List ChipColour)
  size : Int
  komi : ℚ
  chipsNumber : ChipColour → Int

/-- `New(size, komi)` from field.go: fails with `ErrFieldSize` outside
`[minSize, maxSize]`, otherwise builds an empty `size × size` grid and the
initial chip inventory (Black 181, White 180). -/
def Field.New (size : Int) (komi : ℚ) : Except GErr Field :=
  if size < minSize ∨ size > maxSize then
    .error .FieldSize
  else
    .ok { grid := List.replicate size.toNat (List.replicate size.toNat NoColour)
          size := size
          komi := komi
          chipsNumber := updFn (updFn (fun _ => 0) Black blackMax) White whiteMax }

/-- `Size()` from field.go. -/
def Field.Size (field : Field) : Int := field.size

/-- Read of the grid cell addressed by 1-based turn data `td`. -/
def Field.cell (field : Field) (td : TurnData) : ChipColour :=
  ((field.grid.getD (td.Y - 1).toNat []).getD (td.X - 1).toNat NoColour)

/-- `isGameOver` from field.go: true when either colour's chip supply is
below 1. -/
def Field.isGameOver (field : Field) : Bool :=
  field.chipsNumber White < 1 ∨ field.chipsNumber Black < 1

/-- `precheck` from field.go: colour then position then game-over check. -/
def Field.precheck (field : Field) (colour : ChipColour) (td : TurnData) :
    Option GErr :=
  if colour ≠ Black ∧ colour ≠ White then some .Colour
  else if td.X < 1 ∨ td.Y < 1 ∨ td.X > field.size ∨ td.Y > field.size then
    some .Position
  else if field.isGameOver then some .GameOver
  else none

/-- `checkPosition` from field.go: the target cell must be empty. -/
def Field.checkPosition (field : Field) (td : TurnData) : Option GErr :=
  if field.cell td ≠ NoColour then some .Occupied else none

/-- `Move(colour, td)` from field.go: prechecks, then position-occupancy
check, then decrements the mover's chip count and writes the cell. -/
def Field.Move (field : Field) (colour : ChipColour) (td : TurnData) :
    Except GErr Field :=
  match field.precheck colour td with
  | some e => .error e
  | none =>
    match field.checkPosition td with
    | some e => .error e
    | none =>
      .ok { field with
              chipsNumber := updFn field.chipsNumber colour
                               (field.chipsNumber colour - 1)
              grid := field.grid.set (td.Y - 1).toNat
                        ((field.grid.getD (td.Y - 1).toNat []).set
                          (td.X - 1).toNat colour) }

/-- `FieldState` from the `igame`/`interfaces` package.  `Komi` is a plain
struct field whose Go zero value is `0`; maps are embedded as total functions
(absent key reads give the zero value). -/
structure FieldState where
  GameOver : Bool
  ChipsInCup : ChipColour → Int
  ChipsCuptured : ChipColour → Int
  PointsUnderControl : ChipColour → List TurnData
  Komi : ℚ
  Scores : ChipColour → ℚ
  ChipsOnBoard : ChipColour → List TurnData

/-- `getChipsOnBoard(colour)` from field.go: scans x (outer) then y (inner),
collecting 1-based positions holding `colour`. -/
def Field.getChipsOnBoard (field : Field) (colour : ChipColour) :
    List TurnData :=
  (List.range field.size.toNat).flatMap (fun x =>
    (List.range field.size.toNat).filterMap (fun y =>
      let td : TurnData := ⟨(x : Int) + 1, (y : Int) + 1⟩
      if field.cell td = colour then some td else none))

/-- `pointsUnderControl(colour)` from field.go: the body is a TODO returning
an empty slice. -/
def Field.pointsUnderControl (_field : Field) (_colour : ChipColour) :
    List TurnData := []

/-- `State()` from field.go.  The state is built with freshly-made empty maps
(and `Komi` left at its zero value `0`), the per-colour loop runs over
`[White, Black]`, and then `state.Scores[White] += state.Komi` adds the
*state's* komi field — which was never assigned — not `field.komi`. -/
def Field.State (field : Field) : FieldState :=
  let initialNumber : ChipColour → Int :=
    updFn (updFn (fun _ => 0) White whiteMax) Black blackMax
  let base : FieldState :=
    { GameOver := false
      ChipsInCup := fun _ => 0
      ChipsCuptured := fun _ => 0
      PointsUnderControl := fun _ => []
      Komi := 0
      Scores := fun _ => 0
      ChipsOnBoard := fun _ => [] }
  let state := [White, Black].foldl (fun (state : FieldState) colour =>
    let inCup := field.chipsNumber colour
    let onBoard := field.getChipsOnBoard colour
    let cuptured := initialNumber colour - inCup - onBoard.length
    let puc := field.pointsUnderControl colour
    { state with
        ChipsInCup := updFn state.ChipsInCup colour inCup
        ChipsOnBoard := updFn state.ChipsOnBoard colour onBoard
        ChipsCuptured := updFn state.ChipsCuptured colour cuptured
        PointsUnderControl := updFn state.PointsUnderControl colour puc
        Scores := updFn state.Scores colour ((cuptured : ℚ) + puc.length) })
    base
  let state := { state with
                   Scores := updFn state.Scores White
                               (state.Scores White + state.Komi) }
  { state with GameOver := field.isGameOver }

/-! ## Game actor: `game/game_internal.go` -/

/-- `isMyTurnCalc(currentTurn, col)` — Black on even turn index, White on
odd.  Go's `%` truncates toward zero, which is `Int.tmod`. -/
def isMyTurnCalc (currentTurn : Int) (col : ChipColour) : Bool :=
  (currentTurn.tmod 2 = 0 ∧ col = Black) ∨ (currentTurn.tmod 2 = 1 ∧ col = White)

/-- A Go channel, embedded as an abstract identifier. -/
abbrev ChanId := Nat

/-- `Gamer` from gamer.go: display name, unique id, and the session the gamer
is attached to (`inGame Game`, embedded as an optional session handle). -/
structure Gamer where
  Name : String
  ID : Int
  inGame : Option Int := none
deriving DecidableEq, Repr

/-- `GamerState` from game_internal.go: assigned colour, name copy, and the
two deferred one-shot reply channels. -/
structure GamerState where
  Colour : ChipColour
  Name : String
  beMSGChan : Option ChanId := none
  turnMSGChan : Option ChanId := none
deriving DecidableEq, Repr

/-- `gamerStates map[int]*GamerState`, embedded as an association list in
insertion order. -/
abbrev GamerStates := List (Int × GamerState)

/-- Go map read `m[k]`. -/
def alookup {α : Type} (m : List (Int × α)) (k : Int) : Option α :=
  match m with
  | [] => none
  | (i, v) :: rest => if i = k then some v else alookup rest k

/-- Go map write `m[k] = v`: replace in place, else append. -/
def ainsert {α : Type} (m : List (Int × α)) (k : Int) (v : α) :
    List (Int × α) :=
  match m with
  | [] => [(k, v)]
  | (i, w) :: rest => if i = k then (i, v) :: rest else (i, w) :: ainsert rest k v

/-- Go map delete `delete(m, k)`. -/
def aerase {α : Type} (m : List (Int × α)) (k : Int) : List (Int × α) :=
  match m with
  | [] => []
  | (i, w) :: rest => if i = k then rest else (i, w) :: aerase rest k

/-- A value sent over a reply channel. -/
inductive Msg where
  | err (e : GErr)
  | boolv (b : Bool)
  | intv (n : Int)
  | gstate (gs : GamerState)
  | fstate (s : FieldState)

/-- Observable channel activity of the actor: a send of a value, or a close. -/
inductive ChanEvent where
  | send (c : ChanId) (m : Msg)
  | close (c : ChanId)

/-- The channel an event happens on. -/
def ChanEvent.chan : ChanEvent → ChanId
  | .send c _ => c
  | .close c => c

/-- Whether an event is a send on channel `c`. -/
def ChanEvent.isSendOn (c : ChanId) : ChanEvent → Bool
  | .send c' _ => c' = c
  | .close _ => false

/-- `reportOnChan(ch, val)` from game_internal.go: if a channel is stored,
send `val` when it is non-nil, close the channel, and clear the slot. -/
def reportOnChan (ch : Option ChanId) (val : Option GErr) :
    Option ChanId × List ChanEvent :=
  match ch with
  | none => (none, [])
  | some c =>
    (none, (match val with
            | some e => [ChanEvent.send c (.err e)]
            | none => []) ++ [ChanEvent.close c])

/-- `getGamerStateAndChecks(gamerStates, id, gameOver)`: unknown-id check,
then game-over check. -/
def getGamerStateAndChecks (states : GamerStates) (id : Int)
    (gameOver : Bool) : Except GErr GamerState :=
  match alookup states id with
  | none => .error .UnknownID
  | some gs => if gameOver then .error .GameOver else .ok gs

/-- `join` handler from game_internal.go: room check (`len > 1` → NoPlace),
game-over check, the colour draw `rand.Intn(2)+1` (the explicit `rnd`
parameter) overridden by `3 - colour` of each existing participant, then the
map write of a fresh `GamerState`. -/
def joinThisGame (states : GamerStates) (gameOver : Bool) (gamer : Gamer)
    (rnd : ChipColour) : Option GErr × GamerStates :=
  if states.length > 1 then (some .NoPlace, states)
  else if gameOver then (some .GameOver, states)
  else
    let chipColour := states.foldl (fun _ e => 3 - e.2.Colour) rnd
    (none, ainsert states gamer.ID { Colour := chipColour, Name := gamer.Name })

/-- `leaveGame` handler: unknown-id check, then `OtherGamerLeft` reported on
every participant's stored channels, then the leaver's entry is deleted.  The
returned `Bool` is the handler's return value, assigned to `gameOver` by the
loop (false when the id was unknown). -/
def leaveGame (states : GamerStates) (id : Int) :
    Option GErr × GamerStates × List ChanEvent × Bool :=
  match alookup states id with
  | none => (some .UnknownID, states, [], false)
  | some _ =>
    let evs := states.flatMap (fun e =>
      (reportOnChan e.2.beMSGChan (some .OtherGamerLeft)).2 ++
      (reportOnChan e.2.turnMSGChan (some .OtherGamerLeft)).2)
    let states := states.map (fun e =>
      (e.1, { e.2 with beMSGChan := none, turnMSGChan := none }))
    (none, aerase states id, evs, true)

/-- `reportOnTurnChange(gamerStates, currentTurn)`: close the stored
`waitTurn` channel of every participant whose colour matches the parity of
`currentTurn + 1`. -/
def reportOnTurnChange (states : GamerStates) (currentTurn : Int) :
    GamerStates × List ChanEvent :=
  states.foldr (fun e (acc : GamerStates × List ChanEvent) =>
    if isMyTurnCalc (currentTurn + 1) e.2.Colour then
      ((e.1, { e.2 with turnMSGChan := (reportOnChan e.2.turnMSGChan none).1 })
         :: acc.1,
       (reportOnChan e.2.turnMSGChan none).2 ++ acc.2)
    else (e :: acc.1, acc.2)) ([], [])

/-- `makeTurn` handler: checks (UnknownID / GameOver), turn-parity check
(NotYourTurn), board-engine `Move` (rejection wrapped as WrongTurn), then
turn-change notification.  Returns the increment added to `currentTurn`
(1 on an accepted move, 0 otherwise). -/
def makeTurn (states : GamerStates) (id : Int) (turn : TurnData)
    (currentTurn : Int) (gameOver : Bool) (master : Field) :
    Option GErr × GamerStates × Field × List ChanEvent × Int :=
  match getGamerStateAndChecks states id gameOver with
  | .error e => (some e, states, master, [], 0)
  | .ok gs =>
    if ¬ isMyTurnCalc currentTurn gs.Colour then
      (some .NotYourTurn, states, master, [], 0)
    else
      match master.Move gs.Colour turn with
      | .error _ => (some .WrongTurn, states, master, [], 0)
      | .ok master' =>
        let (states', evs) := reportOnTurnChange states currentTurn
        (none, states', master', evs, 1)

/-- The report-to-all-players loop of the `waitBegin` handler:
`for _, gs := range gamerStates { reportOnChan(&gs.beMSGChan, nil) }`. -/
def reportAllBe (states : GamerStates) : GamerStates × List ChanEvent :=
  states.foldr (fun e (acc : GamerStates × List ChanEvent) =>
    ((e.1, { e.2 with beMSGChan := (reportOnChan e.2.beMSGChan none).1 })
       :: acc.1,
     (reportOnChan e.2.beMSGChan none).2 ++ acc.2)) ([], [])

/-- `waitBegin` handler: checks, then the caller's reply channel is stored in
`beMSGChan` (silently overwriting any previous one), and if two participants
are present every stored `beMSGChan` is reported (closed). -/
def waitBegin (states : GamerStates) (id : Int) (rez : ChanId)
    (gameOver : Bool) : GamerStates × List ChanEvent :=
  match getGamerStateAndChecks states id gameOver with
  | .error e => (states, [.send rez (.err e), .close rez])
  | .ok gs =>
    let states := ainsert states id { gs with beMSGChan := some rez }
    if states.length = 2 then reportAllBe states
    else (states, [])

/-- `waitTurn` handler: checks, immediate close when the caller's turn is
already current, otherwise the reply channel is stored in `turnMSGChan`. -/
def waitTurn (states : GamerStates) (id : Int) (rez : ChanId)
    (currentTurn : Int) (gameOver : Bool) : GamerStates × List ChanEvent :=
  match getGamerStateAndChecks states id gameOver with
  | .error e => (states, [.send rez (.err e), .close rez])
  | .ok gs =>
    if isMyTurnCalc currentTurn gs.Colour then (states, [.close rez])
    else (ainsert states id { gs with turnMSGChan := some rez }, [])

/-- `isGameBegun` handler: checks, then replies whether two participants are
present. -/
def isGameBegun (states : GamerStates) (id : Int) (rez : ChanId)
    (gameOver : Bool) : List ChanEvent :=
  match getGamerStateAndChecks states id gameOver with
  | .error e => [.send rez (.err e), .close rez]
  | .ok _ => [.send rez (.boolv (states.length = 2)), .close rez]

/-- `isMyTurn` handler: checks, then replies `isMyTurnCalc`. -/
def isMyTurn (states : GamerStates) (id : Int) (rez : ChanId)
    (currentTurn : Int) (gameOver : Bool) : List ChanEvent :=
  match getGamerStateAndChecks states id gameOver with
  | .error e => [.send rez (.err e), .close rez]
  | .ok gs => [.send rez (.boolv (isMyTurnCalc currentTurn gs.Colour)), .close rez]

/-- `gamerState` handler: membership check only (reads stay answerable while
`gameOver`), then a copy of the participant state is sent. -/
def gamerStateH (states : GamerStates) (id : Int) (rez : ChanId) :
    List ChanEvent :=
  match alookup states id with
  | none => [.send rez (.err .UnknownID), .close rez]
  | some gs => [.send rez (.gstate gs), .close rez]

/-- `fieldSize` handler: membership check, then the board size. -/
def fieldSizeH (states : GamerStates) (id : Int) (rez : ChanId)
    (master : Field) : List ChanEvent :=
  match alookup states id with
  | none => [.send rez (.err .UnknownID), .close rez]
  | some _ => [.send rez (.intv master.Size), .close rez]

/-- `gameState` handler: membership check, then the full board snapshot. -/
def gameStateH (states : GamerStates) (id : Int) (rez : ChanId)
    (master : Field) : List ChanEvent :=
  match alookup states id with
  | none => [.send rez (.err .UnknownID), .close rez]
  | some _ => [.send rez (.fstate master.State), .close rez]

/-- The commands of the game actor's queue (`gameCommand` keyed by the
`gameAction` constants).  `joinCMD` carries the `rand.Intn(2)+1` draw
explicitly. -/
inductive GameCmd where
  | joinCMD (gamer : Gamer) (rnd : ChipColour) (rez : ChanId)
  | endCMD (rez : ChanId)
  | gamerStateCMD (id : Int) (rez : ChanId)
  | gameFieldSize (id : Int) (rez : ChanId)
  | gameStateCMD (id : Int) (rez : ChanId)
  | makeTurnCMD (id : Int) (turn : TurnData) (rez : ChanId)
  | isGameBegunCMD (id : Int) (rez : ChanId)
  | isMyTurnCMD (id : Int) (rez : ChanId)
  | leaveCMD (id : Int) (rez : ChanId)
  | wBeginCMD (id : Int) (rez : ChanId)
  | wTurnCMD (id : Int) (rez : ChanId)
deriving DecidableEq

/-- The state owned by one game actor's worker: the participant map, the
`gmaeDescriptor` (gameOver flag, turn counter, board-engine handle), and
whether the inbound queue has been closed. -/
structure GameSt where
  gamerStates : GamerStates
  currentTurn : Int
  gameOver : Bool
  master : Field
  closed : Bool

/-- The actor state produced by `NewGame`'s `g.run(field)`. -/
def initGameSt (master : Field) : GameSt :=
  { gamerStates := [], currentTurn := 0, gameOver := false
    master := master, closed := false }

/-- Finalizer of `run`: after the queue closes implicitly, `GameDestroyed` is
reported on every stored channel of the remaining participants. -/
def finalizeEvents (states : GamerStates) : List ChanEvent :=
  states.flatMap (fun e =>
    (reportOnChan e.2.beMSGChan (some .GameDestroyed)).2 ++
    (reportOnChan e.2.turnMSGChan (some .GameDestroyed)).2)

/-- Error-send prefix on a handler's reply channel (the handler sends the
error and the deferred `close` fires afterwards). -/
def replyEvents (e? : Option GErr) (rez : ChanId) : List ChanEvent :=
  (match e? with
   | some e => [ChanEvent.send rez (.err e)]
   | none => []) ++ [ChanEvent.close rez]

/-- The post-switch check of `run`'s loop: `if gameOver &&
len(gamerStates) == 0 { close(g) }`, followed by the finalizer for the
(empty) participant map. -/
def postStep (p : GameSt × List ChanEvent) : GameSt × List ChanEvent :=
  if p.1.gameOver ∧ p.1.gamerStates.length = 0 ∧ ¬ p.1.closed then
    ({ p.1 with closed := true }, p.2 ++ finalizeEvents p.1.gamerStates)
  else p

/-- One iteration of `run`'s loop from game_internal.go: dispatch on the
command, then the post-switch close check, and — whenever the queue closes —
the finalizer. -/
def gameStep (st : GameSt) (cmd : GameCmd) : GameSt × List ChanEvent :=
  postStep <|
    match cmd with
    | .endCMD rez =>
      ({ st with closed := true,
                 gamerStates := st.gamerStates.map
                   (fun (e : Int × GamerState) =>
                     (e.1, { e.2 with beMSGChan := none, turnMSGChan := none })) },
       ChanEvent.close rez :: finalizeEvents st.gamerStates)
    | .joinCMD gamer rnd rez =>
      ({ st with gamerStates :=
                   (joinThisGame st.gamerStates st.gameOver gamer rnd).2 },
       replyEvents (joinThisGame st.gamerStates st.gameOver gamer rnd).1 rez)
    | .gamerStateCMD id rez => (st, gamerStateH st.gamerStates id rez)
    | .gameFieldSize id rez => (st, fieldSizeH st.gamerStates id rez st.master)
    | .gameStateCMD id rez => (st, gameStateH st.gamerStates id rez st.master)
    | .wBeginCMD id rez =>
      ({ st with gamerStates := (waitBegin st.gamerStates id rez st.gameOver).1 },
       (waitBegin st.gamerStates id rez st.gameOver).2)
    | .wTurnCMD id rez =>
      ({ st with gamerStates :=
                   (waitTurn st.gamerStates id rez st.currentTurn st.gameOver).1 },
       (waitTurn st.gamerStates id rez st.currentTurn st.gameOver).2)
    | .isMyTurnCMD id rez =>
      (st, isMyTurn st.gamerStates id rez st.currentTurn st.gameOver)
    | .isGameBegunCMD id rez =>
      (st, isGameBegun st.gamerStates id rez st.gameOver)
    | .makeTurnCMD id turn rez =>
      ({ st with
           gamerStates :=
             (makeTurn st.gamerStates id turn st.currentTurn st.gameOver
                st.master).2.1,
           master :=
             (makeTurn st.gamerStates id turn st.currentTurn st.gameOver
                st.master).2.2.1,
           currentTurn :=
             st.currentTurn +
               (makeTurn st.gamerStates id turn st.currentTurn st.gameOver
                  st.master).2.2.2.2 },
       (makeTurn st.gamerStates id turn st.currentTurn st.gameOver
          st.master).2.2.2.1 ++
         replyEvents
           (makeTurn st.gamerStates id turn st.currentTurn st.gameOver
              st.master).1 rez)
    | .leaveCMD id rez =>
      ({ st with gamerStates := (leaveGame st.gamerStates id).2.1,
                 gameOver := (leaveGame st.gamerStates id).2.2.2 },
       (leaveGame st.gamerStates id).2.2.1 ++
         replyEvents (leaveGame st.gamerStates id).1 rez)

/-- The actor's loop over a whole command sequence.  Once the queue is closed
no further command is received (a sender would panic; see the wrapper
embedding below). -/
def gameRun (st : GameSt) : List GameCmd → GameSt × List ChanEvent
  | [] => (st, [])
  | cmd :: cmds =>
    if st.closed then gameRun st cmds
    else
      ((gameRun (gameStep st cmd).1 cmds).1,
       (gameStep st cmd).2 ++ (gameRun (gameStep st cmd).1 cmds).2)

/-! ## Public wrappers: `game/game.go` and the closed-queue seam

A Go send on a closed channel panics with the runtime error message
`"send on closed channel"`.  A public call is embedded as: panic if the
queue is closed, otherwise one actor step plus the reply read off the
caller's channel. -/

/-- What a public call produces for its caller: a normal return (with the
reply value, `none` for a bare close or a still-pending wait), a returned
error, or an escaped panic (program crash). -/
inductive CallRes where
  | ok (m : Option Msg)
  | fail (e : GErr)
  | crash (msg : String)

/-- `recoverAsErr` from game_internal.go: a recovered panic whose error
message is exactly `"send on closed channel"` is reshaped into
`ErrResourceNotAvailable`; any other panic is re-raised. -/
def recoverAsErr : CallRes → CallRes
  | .crash msg =>
    if msg = "send on closed channel" then .fail .ResourceNotAvailable
    else .crash msg
  | r => r

/-- The reply channel of a game command. -/
def GameCmd.rezChan : GameCmd → ChanId
  | .joinCMD _ _ rez => rez
  | .endCMD rez => rez
  | .gamerStateCMD _ rez => rez
  | .gameFieldSize _ rez => rez
  | .gameStateCMD _ rez => rez
  | .makeTurnCMD _ _ rez => rez
  | .isGameBegunCMD _ rez => rez
  | .isMyTurnCMD _ rez => rez
  | .leaveCMD _ rez => rez
  | .wBeginCMD _ rez => rez
  | .wTurnCMD _ rez => rez

/-- The caller-side read of the reply channel: the first event on `rez`
decides the call's outcome (a sent error fails, any other send or a bare
close succeeds); no event means the caller is still waiting. -/
def replyOn (rez : ChanId) : List ChanEvent → CallRes
  | [] => .ok none
  | .send c m :: evs =>
    if c = rez then
      match m with
      | .err e => .fail e
      | m => .ok (some m)
    else replyOn rez evs
  | .close c :: evs => if c = rez then .ok none else replyOn rez evs

/-- The bare queue send plus actor step (no recovery yet): panics when the
queue is closed. -/
def gameSend (st : GameSt) (cmd : GameCmd) : CallRes × GameSt × List ChanEvent :=
  if st.closed then (.crash "send on closed channel", st, [])
  else
    let (st', evs) := gameStep st cmd
    (replyOn cmd.rezChan evs, st', evs)

/-- A public `Game` method from game.go: every one of them wraps the send in
`defer recoverAsErr(&err)`. -/
def gamePublicCall (st : GameSt) (cmd : GameCmd) :
    CallRes × GameSt × List ChanEvent :=
  let (r, st', evs) := gameSend st cmd
  (recoverAsErr r, st', evs)

/-! ## Gamer pool: `pool_internal.go` and `pool.go` -/

/-- The pool-owned state: the player registry (`gamers map[int]*game.Gamer`),
the live sessions reachable through the players' handles, a fresh-handle
counter, and whether the pool queue has been closed by `Release`. -/
structure PoolSt where
  gamers : List (Int × Gamer)
  sessions : List (Int × GameSt)
  nextSession : Int
  closed : Bool

/-- The pool created by `NewGamersPool`. -/
def initPoolSt : PoolSt :=
  { gamers := [], sessions := [], nextSession := 0, closed := false }

/-- `addGamer` handler from pool_internal.go: copies the gamer, sends
`ErrIDOccupied` when the id is already present — and then stores the copy
unconditionally (the error branch does not return). -/
def addGamer (gamers : List (Int × Gamer)) (gamer : Gamer) :
    Option GErr × List (Int × Gamer) :=
  let gCpy := gamer
  ((if (alookup gamers gCpy.ID).isSome then some .IDOccupied else none),
   ainsert gamers gCpy.ID gCpy)

/-- `rmGamer` handler: sends a copy when the id is present (nothing
otherwise), then deletes the entry. -/
def rmGamer (gamers : List (Int × Gamer)) (id : Int) :
    Option Gamer × List (Int × Gamer) :=
  (alookup gamers id, aerase gamers id)

/-- `getGamer` handler: `ErrIDNotFound` when absent, else a copy. -/
def getGamer (gamers : List (Int × Gamer)) (id : Int) : Except GErr Gamer :=
  match alookup gamers id with
  | none => .error .IDNotFound
  | some gamer => .ok gamer

/-- `listGamers` handler: a slice of copies. -/
def listGamers (gamers : List (Int × Gamer)) : List Gamer :=
  gamers.map (·.2)

/-- The pool's view of `g.GetGame().Join(&gCpy)`: the public join call on the
session stored under handle `sid`, returning whether it succeeded.  A closed
session surfaces as `ResourceNotAvailable`, i.e. a failed join. -/
def sessionJoin (sessions : List (Int × GameSt)) (sid : Int) (gamer : Gamer)
    (rnd : ChipColour) : Bool × List (Int × GameSt) :=
  match alookup sessions sid with
  | none => (false, sessions)
  | some st =>
    let (r, st', _) := gamePublicCall st (.joinCMD gamer rnd 0)
    match r with
    | .ok _ => (true, ainsert sessions sid st')
    | _ => (false, ainsert sessions sid st')

/-- `joinOtherGame(gamers, gamer)` from pool_internal.go: scan the registry,
skip the joiner itself, and for every other player holding a session attempt
`Join` with a defensive copy; first acceptance records that session on the
joiner.  No acceptance: `errNoVacantGamer`. -/
def joinOtherGame (entries : List (Int × Gamer))
    (sessions : List (Int × GameSt)) (gamer : Gamer) (rnd : ChipColour) :
    Option GErr × Gamer × List (Int × GameSt) :=
  match entries with
  | [] => (some .NoVacantGamer, gamer, sessions)
  | (_, g) :: rest =>
    if gamer.ID = g.ID then joinOtherGame rest sessions gamer rnd
    else
      match g.inGame with
      | none => joinOtherGame rest sessions gamer rnd
      | some sid =>
        let gCpy := gamer
        let (accepted, sessions') := sessionJoin sessions sid gCpy rnd
        if accepted then (none, { gamer with inGame := some sid }, sessions')
        else joinOtherGame rest sessions' gamer rnd

/-- `startOwnGame(gamer, cmd)` from pool_internal.go: create a session via
`game.NewGame(cmd.size, cmd.komi)` (board-engine constructor), failure kind
`ErrGamerGameStart`; then self-join with a copy, on failure `end` the fresh
session and fail with `ErrGamerGameStart`; on success record the session. -/
def startOwnGame (gamer : Gamer) (size : Int) (komi : ℚ) (rnd : ChipColour)
    (nextSid : Int) : Option GErr × Gamer × Option (Int × GameSt) :=
  match Field.New size komi with
  | .error _ => (some .GamerGameStart, gamer, none)
  | .ok f =>
    let st := initGameSt f
    let gCpy := gamer
    let (r, st', _) := gamePublicCall st (.joinCMD gCpy rnd 0)
    match r with
    | .ok _ => (none, { gamer with inGame := some nextSid }, some (nextSid, st'))
    | _ => (some .GamerGameStart, { gamer with inGame := none }, none)

/-- `joinGame` handler from pool_internal.go: registry lookup
(`ErrIDNotFound`), occupancy check (`ErrGamerOccupied`), then
`joinOtherGame`, and only on `errNoVacantGamer` a `startOwnGame` with the
command's `size` and `komi` fields. -/
def joinGame (ps : PoolSt) (id : Int) (size : Int) (komi : ℚ)
    (rnd : ChipColour) : Option GErr × PoolSt :=
  match alookup ps.gamers id with
  | none => (some .IDNotFound, ps)
  | some gamer =>
    if gamer.inGame.isSome then (some .GamerOccupied, ps)
    else
      let (e?, gamer', sessions') := joinOtherGame ps.gamers ps.sessions gamer rnd
      if e? = some .NoVacantGamer then
        let (e2?, gamer'', sess?) := startOwnGame gamer size komi rnd ps.nextSession
        match sess? with
        | none => (e2?, { ps with gamers := ainsert ps.gamers id gamer'' })
        | some (sid, sst) =>
          (e2?, { ps with gamers := ainsert ps.gamers id gamer''
                          sessions := ainsert ps.sessions sid sst
                          nextSession := ps.nextSession + 1 })
      else
        (none, { ps with gamers := ainsert ps.gamers id gamer'
                         sessions := sessions' })

/-- `releaseGame` handler: registry lookup (`ErrIDNotFound`); if the player
holds a session, `Leave(id)` is invoked on it with the error ignored, and the
reference is cleared. -/
def releaseGame (ps : PoolSt) (id : Int) : Option GErr × PoolSt :=
  match alookup ps.gamers id with
  | none => (some .IDNotFound, ps)
  | some gamer =>
    match gamer.inGame with
    | none => (none, ps)
    | some sid =>
      let sessions :=
        match alookup ps.sessions sid with
        | none => ps.sessions
        | some st =>
          let (_, st', _) := gamePublicCall st (.leaveCMD id 0)
          ainsert ps.sessions sid st'
      (none, { ps with gamers := ainsert ps.gamers id { gamer with inGame := none }
                       sessions := sessions })

/-- The commands of the pool's queue (`command` keyed by the `action`
constants, carrying the fields the sender filled in). -/
inductive PoolCmd where
  | add (gamer : Gamer)
  | rem (id : Int)
  | rel
  | lst
  | joinG (id : Int) (size : Int) (komi : ℚ)
  | releaseG (id : Int)
  | getG (id : Int)
deriving DecidableEq

/-- What a pool handler sends back on the command's reply channel. -/
inductive PoolReply where
  | nilreply
  | err (e : GErr)
  | gamer (g : Gamer)
  | gamers (gs : List Gamer)
deriving DecidableEq

/-- One iteration of the pool worker's `run` switch from pool_internal.go.
`rnd` is the colour draw consumed if the command leads to a session join. -/
def poolDispatch (ps : PoolSt) (cmd : PoolCmd) (rnd : ChipColour) :
    PoolReply × PoolSt :=
  match cmd with
  | .rel => (.nilreply, { ps with closed := true })
  | .add gamer =>
    let (e?, gamers') := addGamer ps.gamers gamer
    ((match e? with | some e => .err e | none => .nilreply),
     { ps with gamers := gamers' })
  | .lst => (.gamers (listGamers ps.gamers), ps)
  | .rem id =>
    let (g?, gamers') := rmGamer ps.gamers id
    ((match g? with | some g => .gamer g | none => .nilreply),
     { ps with gamers := gamers' })
  | .joinG id size komi =>
    let (e?, ps') := joinGame ps id size komi rnd
    ((match e? with | some e => .err e | none => .nilreply), ps')
  | .releaseG id =>
    let (e?, ps') := releaseGame ps id
    ((match e? with | some e => .err e | none => .nilreply), ps')
  | .getG id =>
    ((match getGamer ps.gamers id with
      | .error e => .err e
      | .ok g => .gamer g), ps)

/-- Outcome of a pool queue send: the handler's reply, or the panic of a send
on the closed queue.  None of the pool's public methods in pool.go installs
a `recover`, so the panic escapes to the caller. -/
inductive PoolCallRes where
  | ok (r : PoolReply)
  | crash (msg : String)
deriving DecidableEq

/-- A send to the pool queue: panics when the pool was released, otherwise
one worker iteration. -/
def poolCall (ps : PoolSt) (cmd : PoolCmd) (rnd : ChipColour) :
    PoolCallRes × PoolSt :=
  if ps.closed then (.crash "send on closed channel", ps)
  else
    let (r, ps') := poolDispatch ps cmd rnd
    (.ok r, ps')

/-- Caller-visible result of a pool.go method. -/
inductive GoResult (α : Type) where
  | ok (a : α)
  | fail (e : GErr)
  | crash (msg : String)
deriving DecidableEq

/-- `AddGamer` from pool.go: nil check before the send; the reply channel
yields the handler's error, if any. -/
def AddGamerCall (ps : PoolSt) (gamer : Option Gamer) :
    GoResult Unit × PoolSt :=
  match gamer with
  | none => (.fail .NilGamer, ps)
  | some gamer =>
    match poolCall ps (.add gamer) NoColour with
    | (.crash m, ps') => (.crash m, ps')
    | (.ok (.err e), ps') => (.fail e, ps')
    | (.ok _, ps') => (.ok (), ps')

/-- `RmGamer` from pool.go: a reply that is not a `*game.Gamer` (the silent
close after an unknown id) is turned into `ErrIDNotFound` by the failed type
assertion. -/
def RmGamerCall (ps : PoolSt) (id : Int) : GoResult Gamer × PoolSt :=
  match poolCall ps (.rem id) NoColour with
  | (.crash m, ps') => (.crash m, ps')
  | (.ok (.gamer g), ps') => (.ok g, ps')
  | (.ok _, ps') => (.fail .IDNotFound, ps')

/-- `ListGamers` from pool.go. -/
def ListGamersCall (ps : PoolSt) : GoResult (List Gamer) × PoolSt :=
  match poolCall ps .lst NoColour with
  | (.crash m, ps') => (.crash m, ps')
  | (.ok (.gamers gs), ps') => (.ok gs, ps')
  | (.ok _, ps') => (.crash "wrong result type", ps')

/-- `JoinGame(id)` from pool.go: the sent command carries only `act` and
`id`, so its `size` and `komi` fields are the Go zero values `0` and `0.0`. -/
def JoinGameCall (ps : PoolSt) (id : Int) (rnd : ChipColour) :
    GoResult Unit × PoolSt :=
  match poolCall ps (.joinG id 0 0) rnd with
  | (.crash m, ps') => (.crash m, ps')
  | (.ok (.err e), ps') => (.fail e, ps')
  | (.ok _, ps') => (.ok (), ps')

/-- `ReleaseGame` from pool.go. -/
def ReleaseGameCall (ps : PoolSt) (id : Int) : GoResult Unit × PoolSt :=
  match poolCall ps (.releaseG id) NoColour with
  | (.crash m, ps') => (.crash m, ps')
  | (.ok (.err e), ps') => (.fail e, ps')
  | (.ok _, ps') => (.ok (), ps')

/-- `GetGamer` from pool.go. -/
def GetGamerCall (ps : PoolSt) (id : Int) : GoResult Gamer × PoolSt :=
  match poolCall ps (.getG id) NoColour with
  | (.crash m, ps') => (.crash m, ps')
  | (.ok (.err e), ps') => (.fail e, ps')
  | (.ok (.gamer g), ps') => (.ok g, ps')
  | (.ok _, ps') => (.crash "wrong result type", ps')

/-- `Release` from pool.go: closes the pool queue. -/
def ReleaseCall (ps : PoolSt) : GoResult Unit × PoolSt :=
  match poolCall ps .rel NoColour with
  | (.crash m, ps') => (.crash m, ps')
  | (.ok _, ps') => (.ok (), ps')

/-! ## Concrete fixtures used by witnesses -/

/-- The 1×1 board: the value `Field.New 1 0` constructs (see
`field1_is_new`). -/
def field1 : Field :=
  { grid := [[NoColour]], size := 1, komi := 0,
    chipsNumber := updFn (updFn (fun _ => 0) Black blackMax) White whiteMax }

/-- A session whose sole participant, id 1, holds Black and is not waiting. -/
def demoSession : GameSt :=
  { gamerStates := [(1, { Colour := Black, Name := "A" })]
    currentTurn := 0, gameOver := false, master := field1, closed := false }

/-- A participant state with a pending `waitBegin` reply channel 7. -/
def pendingState : GamerState :=
  { Colour := Black, Name := "A", beMSGChan := some 7, turnMSGChan := none }

/-- A pool filled with five idle players, ids 1..5. -/
def fivePool : PoolSt :=
  (AddGamerCall ((AddGamerCall ((AddGamerCall ((AddGamerCall
    ((AddGamerCall initPoolSt (some ⟨"G1", 1, none⟩)).2)
    (some ⟨"G2", 2, none⟩)).2) (some ⟨"G3", 3, none⟩)).2)
    (some ⟨"G4", 4, none⟩)).2) (some ⟨"G5", 5, none⟩)).2

/-- `JoinGame` called for each of the five players in turn (the colour draw
for any session join is fixed to Black; it does not affect matchmaking). -/
def poolJ1 : GoResult Unit × PoolSt := JoinGameCall fivePool 1 Black
def poolJ2 : GoResult Unit × PoolSt := JoinGameCall poolJ1.2 2 Black
def poolJ3 : GoResult Unit × PoolSt := JoinGameCall poolJ2.2 3 Black
def poolJ4 : GoResult Unit × PoolSt := JoinGameCall poolJ3.2 4 Black
def poolJ5 : GoResult Unit × PoolSt := JoinGameCall poolJ4.2 5 Black

/-! ## Association-list (Go map) lemmas -/

theorem field1_is_new : Field.New 1 0 = .ok field1 := rfl

theorem alookup_ainsert {α : Type} (m : List (Int × α)) (k : Int) (v : α) :
    alookup (ainsert m k v) k = some v := by
  induction m with
  | nil => simp [ainsert, alookup]
  | cons e rest ih =>
    obtain ⟨i, w⟩ := e
    by_cases h : i = k <;> simp [ainsert, alookup, h, ih]

theorem alookup_mem {α : Type} (m : List (Int × α)) (k : Int) (v : α)
    (h : alookup m k = some v) : (k, v) ∈ m := by
  induction m with
  | nil => simp [alookup] at h
  | cons e rest ih =>
    obtain ⟨i, w⟩ := e
    by_cases hik : i = k
    · simp [alookup, hik] at h
      simp [hik, h]
    · simp [alookup, hik] at h
      exact List.mem_cons_of_mem _ (ih h)

theorem alookup_aerase_ainsert {α : Type} (m : List (Int × α)) (k : Int)
    (v : α) (h : alookup m k = none) :
    alookup (aerase (ainsert m k v) k) k = none := by
  induction m with
  | nil => simp [ainsert, aerase, alookup]
  | cons e rest ih =>
    obtain ⟨i, w⟩ := e
    by_cases hik : i = k
    · simp [alookup, hik] at h
    · simp [alookup, hik] at h
      simp [ainsert, aerase, alookup, hik, ih h]

theorem mem_ainsert_nodup {α : Type} (m : List (Int × α)) (k : Int) (v : α)
    (hnd : (m.map Prod.fst).Nodup) :
    ∀ e ∈ ainsert m k v, e = (k, v) ∨ (e ∈ m ∧ e.1 ≠ k) := by
  induction m with
  | nil =>
    intro e he
    simp [ainsert] at he
    exact Or.inl he
  | cons p rest ih =>
    obtain ⟨i, w⟩ := p
    simp only [List.map_cons, List.nodup_cons] at hnd
    intro e he
    by_cases hik : i = k
    · subst hik
      simp [ainsert] at he
      rcases he with he | he
      · exact Or.inl (by simp [he])
      · refine Or.inr ⟨List.mem_cons_of_mem _ he, ?_⟩
        intro hek
        exact hnd.1 (hek ▸ List.mem_map_of_mem Prod.fst he)
    · simp [ainsert, hik] at he
      rcases he with he | he
      · exact Or.inr ⟨by simp [he], by simp [he, hik]⟩
      · rcases ih hnd.2 e he with h | ⟨hm, hk⟩
        · exact Or.inl h
        · exact Or.inr ⟨List.mem_cons_of_mem _ hm, hk⟩

/-! ## Claim theorems -/

/-- C8: for a non-negative turn index, `isMyTurnCalc` holds exactly when the
index is even and the colour Black, or odd and the colour White; and of the
two colours exactly one is to-move. -/
theorem isMyTurnCalc_parity (t : Int) (c : ChipColour) (ht : 0 ≤ t) :
    (isMyTurnCalc t c = true ↔ ((Even t ∧ c = Black) ∨ (¬ Even t ∧ c = White)))
    ∧ (isMyTurnCalc t Black = true ↔ ¬ (isMyTurnCalc t White = true)) := by
  have hm : t.tmod 2 = t % 2 := Int.tmod_eq_emod ht (by norm_num)
  rcases (by omega : t % 2 = 0 ∨ t % 2 = 1) with h | h <;>
    simp [isMyTurnCalc, hm, h, Int.even_iff, Black, White]

theorem isMyTurnCalc_parity_witness :
    (0 : Int) ≤ 2
    ∧ ((isMyTurnCalc 2 Black = true ↔
          ((Even (2 : Int) ∧ Black = Black) ∨ (¬ Even (2 : Int) ∧ Black = White)))
       ∧ (isMyTurnCalc 2 Black = true ↔ ¬ (isMyTurnCalc 2 White = true))) :=
  ⟨by decide, isMyTurnCalc_parity 2 Black (by decide)⟩

/-- Symbolic score law of `Field.State`: each colour's score is captured
plus controlled, and what is added to White's score afterwards is the
snapshot's own `Komi` field — which `State` never assigns, so it is `0`. -/
theorem state_scores_general (f : Field) :
    f.State.Komi = 0
    ∧ f.State.Scores White
        = (f.State.ChipsCuptured White : ℚ)
          + ((f.State.PointsUnderControl White).length : ℚ)
          + f.State.Komi
    ∧ f.State.Scores Black
        = (f.State.ChipsCuptured Black : ℚ)
          + ((f.State.PointsUnderControl Black).length : ℚ) := by
  refine ⟨rfl, ?_, ?_⟩ <;>
    simp [Field.State, updFn, White, Black, Field.pointsUnderControl]

/-- C7: every snapshot's White score is captured + controlled + the
snapshot's never-assigned `Komi` field (always `0`) — not the komi passed to
`New`: the untouched field built by `New 2 (13/2)` records komi `13/2` but
reports White score `0`. -/
theorem fieldState_komi_dropped :
    (∀ f : Field, f.State.Komi = 0
       ∧ f.State.Scores White
           = (f.State.ChipsCuptured White : ℚ)
             + ((f.State.PointsUnderControl White).length : ℚ)
             + f.State.Komi
       ∧ f.State.Scores Black
           = (f.State.ChipsCuptured Black : ℚ)
             + ((f.State.PointsUnderControl Black).length : ℚ))
    ∧ (Field.New 2 (13/2)).map (fun f => f.State.Scores White) = .ok 0
    ∧ (Field.New 2 (13/2)).map Field.komi = .ok (13/2)
    ∧ ((13 : ℚ)/2 ≠ 0) := by
  refine ⟨state_scores_general, ?_, rfl, by norm_num⟩
  have h2 : (Field.New 2 (13/2)).map
      (fun f => (f.State.ChipsCuptured White,
                 (f.State.PointsUnderControl White).length)) = .ok (0, 0) := rfl
  rcases hx : Field.New 2 (13/2) with e | f
  · rw [hx] at h2
    exact absurd h2 (by simp [Except.map])
  · rw [hx] at h2
    simp only [Except.map, Except.ok.injEq, Prod.mk.injEq] at h2 ⊢
    have hc := (state_scores_general f).2.1
    have hk := (state_scores_general f).1
    rw [hc, hk, h2.1, h2.2]
    norm_num

/-- C4: `addGamer` on an occupied id replies `ErrIDOccupied` but still
overwrites the registry entry: after adding Sam over Fury under id 4,
`getGamer 4` returns Sam, though the entry count is unchanged. -/
theorem addGamer_occupied_overwrites :
    addGamer [(4, (⟨"Fury", 4, none⟩ : Gamer))] ⟨"Sam", 4, none⟩
      = (some .IDOccupied, [(4, ⟨"Sam", 4, none⟩)])
    ∧ getGamer [(4, (⟨"Sam", 4, none⟩ : Gamer))] 4 = .ok ⟨"Sam", 4, none⟩
    ∧ (listGamers [(4, (⟨"Sam", 4, none⟩ : Gamer))]).length
        = (listGamers [(4, (⟨"Fury", 4, none⟩ : Gamer))]).length
    ∧ (⟨"Sam", 4, none⟩ : Gamer) ≠ ⟨"Fury", 4, none⟩ :=
  ⟨rfl, rfl, rfl, by decide⟩

/-- C9: from any registry not containing `g.ID`: `addGamer g` succeeds,
`getGamer g.ID` then returns a value equal to `g`, `rmGamer g.ID` returns a
value equal to `g`, and a final `getGamer g.ID` fails with `ErrIDNotFound`. -/
theorem pool_roundtrip (gamers : List (Int × Gamer)) (g : Gamer)
    (h : alookup gamers g.ID = none) :
    (addGamer gamers g).1 = none
    ∧ getGamer (addGamer gamers g).2 g.ID = .ok g
    ∧ (rmGamer (addGamer gamers g).2 g.ID).1 = some g
    ∧ getGamer (rmGamer (addGamer gamers g).2 g.ID).2 g.ID
        = .error .IDNotFound := by
  refine ⟨?_, ?_, ?_, ?_⟩
  · simp [addGamer, h]
  · simp [addGamer, getGamer, alookup_ainsert]
  · simp [addGamer, rmGamer, alookup_ainsert]
  · simp [addGamer, rmGamer, getGamer, alookup_aerase_ainsert _ _ _ h]

theorem pool_roundtrip_witness :
    alookup ([] : List (Int × Gamer)) (Gamer.ID ⟨"Joe", 1, none⟩) = none
    ∧ ((addGamer [] ⟨"Joe", 1, none⟩).1 = none
       ∧ getGamer (addGamer [] ⟨"Joe", 1, none⟩).2 (Gamer.ID ⟨"Joe", 1, none⟩)
           = .ok ⟨"Joe", 1, none⟩
       ∧ (rmGamer (addGamer [] ⟨"Joe", 1, none⟩).2
            (Gamer.ID ⟨"Joe", 1, none⟩)).1 = some ⟨"Joe", 1, none⟩
       ∧ getGamer (rmGamer (addGamer [] ⟨"Joe", 1, none⟩).2
            (Gamer.ID ⟨"Joe", 1, none⟩)).2 (Gamer.ID ⟨"Joe", 1, none⟩)
           = .error .IDNotFound) :=
  ⟨rfl, pool_roundtrip [] ⟨"Joe", 1, none⟩ rfl⟩

/-- C10: a second `join` by the session's sole participant succeeds (the
reply is a bare close), keeps the participant map at size one — so the game
is still not begun — and replaces the stored state by a fresh one holding
the opposite colour and no pending wait channels. -/
theorem join_rejoin (f : Field) (t : Int) (i : Int) (gs : GamerState)
    (gamer : Gamer) (rnd : ChipColour) (rez : ChanId) (hid : gamer.ID = i) :
    gameStep { gamerStates := [(i, gs)], currentTurn := t, gameOver := false,
               master := f, closed := false } (.joinCMD gamer rnd rez)
      = ({ gamerStates := [(i, { Colour := 3 - gs.Colour, Name := gamer.Name,
                                 beMSGChan := none, turnMSGChan := none })],
           currentTurn := t, gameOver := false, master := f, closed := false },
         [.close rez])
    ∧ replyOn rez [ChanEvent.close rez] = .ok none := by
  constructor
  · simp [gameStep, postStep, joinThisGame, ainsert, replyEvents, hid]
  · simp [replyOn]

theorem join_rejoin_witness :
    (Gamer.ID ⟨"A", 1, none⟩ = 1)
    ∧ (gameStep { gamerStates := [(1, { Colour := Black, Name := "A",
                                        beMSGChan := some 7,
                                        turnMSGChan := some 8 })],
                  currentTurn := 0, gameOver := false,
                  master := field1, closed := false }
         (.joinCMD ⟨"A", 1, none⟩ White 9)
        = ({ gamerStates := [(1, { Colour := White, Name := "A",
                                   beMSGChan := none, turnMSGChan := none })],
             currentTurn := 0, gameOver := false,
             master := field1, closed := false },
           [.close 9])
       ∧ replyOn 9 [ChanEvent.close 9] = .ok none) :=
  ⟨rfl, join_rejoin field1 0 1
          { Colour := Black, Name := "A", beMSGChan := some 7,
            turnMSGChan := some 8 } ⟨"A", 1, none⟩ White 9 rfl⟩

/-! ## Turn-index lemmas (C6) -/

theorem postStep_fst_turn (p : GameSt × List ChanEvent) :
    (postStep p).1.currentTurn = p.1.currentTurn := by
  unfold postStep
  split <;> rfl

theorem postStep_snd (p : GameSt × List ChanEvent) :
    (postStep p).2 = p.2 := by
  unfold postStep
  split
  · rename_i h
    rw [List.length_eq_zero.mp h.2.1]
    simp [finalizeEvents]
  · rfl

theorem reportOnChan_none_noSend (ch : Option ChanId) (c : ChanId) :
    ((reportOnChan ch none).2.all (fun e => ! e.isSendOn c)) = true := by
  cases ch <;> simp [reportOnChan, ChanEvent.isSendOn]

theorem reportOnTurnChange_noSend (states : GamerStates) (t : Int)
    (c : ChanId) :
    ((reportOnTurnChange states t).2.all (fun e => ! e.isSendOn c)) = true := by
  induction states with
  | nil => rfl
  | cons e rest ih =>
    simp only [reportOnTurnChange, List.foldr_cons] at ih ⊢
    by_cases h : isMyTurnCalc (t + 1) e.2.Colour <;>
      simp [h, List.all_append, ih, reportOnChan_none_noSend]

/-- Per-command turn-index law: one step changes `currentTurn` by zero or
one, and it is exactly one precisely when the command was a `makeTurn` whose
reply carries no error (the board engine accepted the move). -/
theorem gameStep_turn (st : GameSt) (cmd : GameCmd) :
    ((gameStep st cmd).1.currentTurn = st.currentTurn ∨
     (gameStep st cmd).1.currentTurn = st.currentTurn + 1)
    ∧ ((gameStep st cmd).1.currentTurn = st.currentTurn + 1 ↔
        ((∃ id turn rez, cmd = .makeTurnCMD id turn rez)
         ∧ (gameStep st cmd).2.all (fun e => ! e.isSendOn cmd.rezChan)
             = true)) := by
  cases cmd
  case makeTurnCMD id turn rez =>
    rcases hgc : getGamerStateAndChecks st.gamerStates id st.gameOver with e | gs
    · constructor
      · left
        simp [gameStep, makeTurn, hgc, postStep_fst_turn]
      · constructor
        · intro h
          simp [gameStep, makeTurn, hgc, postStep_fst_turn] at h
        · rintro ⟨-, hall⟩
          simp [gameStep, makeTurn, hgc, postStep_snd, replyEvents,
                GameCmd.rezChan, ChanEvent.isSendOn] at hall
    · by_cases hmt : isMyTurnCalc st.currentTurn gs.Colour
      · rcases hmv : st.master.Move gs.Colour turn with e | m
        · constructor
          · left
            simp [gameStep, makeTurn, hgc, hmt, hmv, postStep_fst_turn]
          · constructor
            · intro h
              simp [gameStep, makeTurn, hgc, hmt, hmv, postStep_fst_turn] at h
            · rintro ⟨-, hall⟩
              simp [gameStep, makeTurn, hgc, hmt, hmv, postStep_snd,
                    replyEvents, GameCmd.rezChan, ChanEvent.isSendOn] at hall
        · constructor
          · right
            simp [gameStep, makeTurn, hgc, hmt, hmv, postStep_fst_turn]
          · constructor
            · intro _
              refine ⟨⟨id, turn, rez, rfl⟩, ?_⟩
              have hns := reportOnTurnChange_noSend st.gamerStates
                st.currentTurn rez
              simp [gameStep, makeTurn, hgc, hmt, hmv, postStep_snd,
                    replyEvents, GameCmd.rezChan, ChanEvent.isSendOn,
                    List.all_append] at hns ⊢
              exact hns
            · intro _
              simp [gameStep, makeTurn, hgc, hmt, hmv, postStep_fst_turn]
      · constructor
        · left
          simp [gameStep, makeTurn, hgc, hmt, postStep_fst_turn]
        · constructor
          · intro h
            simp [gameStep, makeTurn, hgc, hmt, postStep_fst_turn] at h
          · rintro ⟨-, hall⟩
            simp [gameStep, makeTurn, hgc, hmt, postStep_snd, replyEvents,
                  GameCmd.rezChan, ChanEvent.isSendOn] at hall
  all_goals
    constructor
    · left
      simp [gameStep, postStep_fst_turn]
    · constructor
      · intro h
        exact absurd h (by simp [gameStep, postStep_fst_turn])
      · rintro ⟨⟨id, turn, rez, hcmd⟩, -⟩
        exact absurd hcmd (by simp)

/-- C6: `turnIndex` advances by exactly one on a `makeTurn` the board engine
accepts (success reply), stays put on every rejected `makeTurn` and every
other command, and is monotonically non-decreasing along any command
sequence. -/
theorem turnIndex_monotone :
    (∀ (st : GameSt) (cmd : GameCmd),
      ((gameStep st cmd).1.currentTurn = st.currentTurn ∨
       (gameStep st cmd).1.currentTurn = st.currentTurn + 1)
      ∧ ((gameStep st cmd).1.currentTurn = st.currentTurn + 1 ↔
          ((∃ id turn rez, cmd = .makeTurnCMD id turn rez)
           ∧ (gameStep st cmd).2.all (fun e => ! e.isSendOn cmd.rezChan)
               = true)))
    ∧ (∀ (st : GameSt) (cmds : List GameCmd),
        st.currentTurn ≤ (gameRun st cmds).1.currentTurn) := by
  refine ⟨gameStep_turn, ?_⟩
  intro st cmds
  induction cmds generalizing st with
  | nil => simp [gameRun]
  | cons c cs ih =>
    by_cases h : st.closed
    · simp only [gameRun]
      rw [if_pos h]
      exact ih st
    · simp only [gameRun]
      rw [if_neg h]
      show st.currentTurn ≤ (gameRun (gameStep st c).1 cs).1.currentTurn
      have h1 := (gameStep_turn st c).1
      have h2 := ih (gameStep st c).1
      rcases h1 with h1 | h1 <;> omega

theorem turnIndex_monotone_witness :
    (((gameStep demoSession (.makeTurnCMD 1 ⟨1, 1⟩ 9)).1.currentTurn
         = demoSession.currentTurn ∨
      (gameStep demoSession (.makeTurnCMD 1 ⟨1, 1⟩ 9)).1.currentTurn
         = demoSession.currentTurn + 1)
     ∧ ((gameStep demoSession (.makeTurnCMD 1 ⟨1, 1⟩ 9)).1.currentTurn
          = demoSession.currentTurn + 1 ↔
         ((∃ id turn rez,
             (GameCmd.makeTurnCMD 1 ⟨1, 1⟩ 9) = .makeTurnCMD id turn rez)
          ∧ (gameStep demoSession (.makeTurnCMD 1 ⟨1, 1⟩ 9)).2.all
              (fun e => ! e.isSendOn (GameCmd.makeTurnCMD 1 ⟨1, 1⟩ 9).rezChan)
              = true)))
    ∧ demoSession.currentTurn
        ≤ (gameRun demoSession [.makeTurnCMD 1 ⟨1, 1⟩ 9]).1.currentTurn :=
  ⟨turnIndex_monotone.1 demoSession (.makeTurnCMD 1 ⟨1, 1⟩ 9),
   turnIndex_monotone.2 demoSession [.makeTurnCMD 1 ⟨1, 1⟩ 9]⟩

/-- C2: `over` does not stay true.  After joins by 1 and 2 and a leave by 1
the flag is true; but a second leave with the (now unknown) id 1 assigns
`leaveGame`'s `false` return back to `gameOver`, and a subsequent join by a
third player then succeeds instead of failing with `GameOver`. -/
theorem gameOver_reset_by_unknown_leave :
    ((gameRun (initGameSt field1)
        [.joinCMD ⟨"A", 1, none⟩ Black 1, .joinCMD ⟨"B", 2, none⟩ Black 2,
         .leaveCMD 1 3]).1.gameOver = true)
    ∧ ((gameRun (initGameSt field1)
          [.joinCMD ⟨"A", 1, none⟩ Black 1, .joinCMD ⟨"B", 2, none⟩ Black 2,
           .leaveCMD 1 3, .leaveCMD 1 4,
           .joinCMD ⟨"C", 3, none⟩ Black 5]).1.gameOver = false)
    ∧ ((gameRun (initGameSt field1)
          [.joinCMD ⟨"A", 1, none⟩ Black 1, .joinCMD ⟨"B", 2, none⟩ Black 2,
           .leaveCMD 1 3, .leaveCMD 1 4,
           .joinCMD ⟨"C", 3, none⟩ Black 5]).1.closed = false)
    ∧ ((alookup (gameRun (initGameSt field1)
          [.joinCMD ⟨"A", 1, none⟩ Black 1, .joinCMD ⟨"B", 2, none⟩ Black 2,
           .leaveCMD 1 3, .leaveCMD 1 4,
           .joinCMD ⟨"C", 3, none⟩ Black 5]).1.gamerStates 3).isSome = true)
    ∧ (replyOn 5 (gameRun (initGameSt field1)
          [.joinCMD ⟨"A", 1, none⟩ Black 1, .joinCMD ⟨"B", 2, none⟩ Black 2,
           .leaveCMD 1 3, .leaveCMD 1 4,
           .joinCMD ⟨"C", 3, none⟩ Black 5]).2 = .ok none) :=
  ⟨rfl, rfl, rfl, rfl, rfl⟩

/-- C3 (as claimed) is false for the pool: `AddGamer` on a released pool
escapes as the `"send on closed channel"` panic — pool.go installs no
`recover` — rather than returning `ResourceNotAvailable`. -/
theorem pool_after_release_crashes :
    ((AddGamerCall (ReleaseCall initPoolSt).2 (some ⟨"Joe", 1, none⟩)).1
        = .crash "send on closed channel")
    ∧ ((AddGamerCall (ReleaseCall initPoolSt).2 (some ⟨"Joe", 1, none⟩)).1
        ≠ GoResult.fail .ResourceNotAvailable) :=
  ⟨rfl, by decide⟩

/-- C3 amended: every public session operation sent to a closed session
returns `ResourceNotAvailable` (the wrapper's `recover` translates the
panic); every pool command sent after `Release` escapes as the
`"send on closed channel"` panic. -/
theorem closed_queue_behaviour :
    (∀ (st : GameSt) (cmd : GameCmd), st.closed = true →
        (gamePublicCall st cmd).1 = .fail .ResourceNotAvailable)
    ∧ (∀ (ps : PoolSt) (cmd : PoolCmd) (rnd : ChipColour), ps.closed = true →
        (poolCall ps cmd rnd).1 = .crash "send on closed channel") := by
  constructor
  · intro st cmd h
    simp [gamePublicCall, gameSend, h, recoverAsErr]
  · intro ps cmd rnd h
    simp [poolCall, h]

theorem closed_queue_behaviour_witness :
    (GameSt.closed { gamerStates := [], currentTurn := 0, gameOver := false,
                     master := field1, closed := true } = true
     ∧ (gamePublicCall { gamerStates := [], currentTurn := 0,
                         gameOver := false, master := field1, closed := true }
          (.endCMD 0)).1 = .fail .ResourceNotAvailable)
    ∧ ((ReleaseCall initPoolSt).2.closed = true
       ∧ (poolCall (ReleaseCall initPoolSt).2 .lst NoColour).1
           = .crash "send on closed channel") :=
  ⟨⟨rfl, closed_queue_behaviour.1
           { gamerStates := [], currentTurn := 0, gameOver := false,
             master := field1, closed := true } (.endCMD 0) rfl⟩,
   ⟨rfl, closed_queue_behaviour.2 (ReleaseCall initPoolSt).2 .lst NoColour rfl⟩⟩

/-- C5 (as claimed) is false: with participant 1 holding a pending
`waitBegin` channel 2, a second `waitBegin` on channel 3 stores channel 3 —
but the step emits no event at all: channel 2 is neither sent on nor closed,
so the previous caller is not released. -/
theorem waitBegin_overwrite_counterexample :
    ((alookup (gameStep (gameStep (initGameSt field1)
          (.joinCMD ⟨"A", 1, none⟩ Black 1)).1 (.wBeginCMD 1 2)).1.gamerStates
        1).map GamerState.beMSGChan = some (some 2))
    ∧ ((alookup (gameStep (gameStep (gameStep (initGameSt field1)
          (.joinCMD ⟨"A", 1, none⟩ Black 1)).1 (.wBeginCMD 1 2)).1
          (.wBeginCMD 1 3)).1.gamerStates 1).map GamerState.beMSGChan
        = some (some 3))
    ∧ ((gameStep (gameStep (gameStep (initGameSt field1)
          (.joinCMD ⟨"A", 1, none⟩ Black 1)).1 (.wBeginCMD 1 2)).1
          (.wBeginCMD 1 3)).2 = []) :=
  ⟨rfl, rfl, rfl⟩

/-! ## waitBegin-overwrite lemmas (C5) -/

theorem reportOnChan_fst (ch : Option ChanId) (v : Option GErr) :
    (reportOnChan ch v).1 = none := by
  cases ch <;> rfl

theorem reportAllBe_untouched (sts : GamerStates) (c : ChanId)
    (h : ∀ e ∈ sts, e.2.beMSGChan ≠ some c) :
    ((reportAllBe sts).2.all (fun e => e.chan != c) = true)
    ∧ (∀ e ∈ (reportAllBe sts).1, e.2.beMSGChan ≠ some c) := by
  induction sts with
  | nil => exact ⟨rfl, by simp [reportAllBe]⟩
  | cons p rest ih =>
    have hp := h p (List.mem_cons_self p rest)
    have hrest := ih (fun e he => h e (List.mem_cons_of_mem _ he))
    constructor
    · simp only [reportAllBe, List.foldr_cons, List.all_append]
      refine (Bool.and_eq_true _ _).mpr ⟨?_, hrest.1⟩
      cases hch : p.2.beMSGChan with
      | none => simp [reportOnChan]
      | some ch =>
        have : ch ≠ c := fun hcc => hp (by rw [hch, hcc])
        simp [reportOnChan, ChanEvent.chan, this]
    · intro e he
      simp only [reportAllBe, List.foldr_cons, List.mem_cons] at he
      rcases he with rfl | he
      · simp [reportOnChan_fst]
      · exact hrest.2 e he

/-- C5 amended: a second `waitBegin` from a participant with a pending reply
channel silently overwrites the stored channel; the old channel is neither
sent on nor closed by the step, so the previous caller is not released. -/
theorem waitBegin_overwrite_amended (states : GamerStates) (id : Int)
    (gs : GamerState) (cOld cNew : ChanId)
    (hnd : (states.map Prod.fst).Nodup)
    (hlk : alookup states id = some gs)
    (hold : gs.beMSGChan = some cOld)
    (hne : cOld ≠ cNew)
    (hothers : ∀ e ∈ states, e.1 ≠ id → e.2.beMSGChan ≠ some cOld) :
    ((alookup (waitBegin states id cNew false).1 id).map GamerState.beMSGChan
        ≠ some (some cOld))
    ∧ ((waitBegin states id cNew false).2.all (fun e => e.chan != cOld)
        = true) := by
  have hgc : getGamerStateAndChecks states id false = .ok gs := by
    simp [getGamerStateAndChecks, hlk]
  have hwb : waitBegin states id cNew false =
      (if (ainsert states id { gs with beMSGChan := some cNew }).length = 2
       then reportAllBe (ainsert states id { gs with beMSGChan := some cNew })
       else (ainsert states id { gs with beMSGChan := some cNew }, [])) := by
    simp [waitBegin, hgc]
  have hmem : ∀ e ∈ ainsert states id { gs with beMSGChan := some cNew },
      e.2.beMSGChan ≠ some cOld := by
    intro e he
    rcases mem_ainsert_nodup states id _ hnd e he with rfl | ⟨hm, hk⟩
    · exact fun hcc => hne (Option.some.inj hcc).symm
    · exact hothers e hm hk
  rw [hwb]
  by_cases hlen :
      (ainsert states id { gs with beMSGChan := some cNew }).length = 2
  · rw [if_pos hlen]
    have hspec := reportAllBe_untouched _ cOld hmem
    refine ⟨?_, hspec.1⟩
    cases halk : alookup
        (reportAllBe (ainsert states id { gs with beMSGChan := some cNew })).1
        id with
    | none => simp [halk]
    | some gs' =>
      have hmm := hspec.2 _ (alookup_mem _ _ _ halk)
      exact fun h => hmm (Option.some.inj h)
  · rw [if_neg hlen]
    constructor
    · rw [alookup_ainsert]
      intro h
      exact hne (Option.some.inj (Option.some.inj h)).symm
    · rfl

theorem waitBegin_overwrite_amended_witness :
    (([(1, pendingState)].map
        (Prod.fst (α := Int) (β := GamerState))).Nodup
     ∧ alookup [(1, pendingState)] 1 = some pendingState
     ∧ pendingState.beMSGChan = some 7
     ∧ (7 : ChanId) ≠ 9
     ∧ (∀ e ∈ [(1, pendingState)], e.1 ≠ 1 → e.2.beMSGChan ≠ some 7))
    ∧ (((alookup (waitBegin [(1, pendingState)] 1 9 false).1 1).map
          GamerState.beMSGChan ≠ some (some 7))
       ∧ ((waitBegin [(1, pendingState)] 1 9 false).2.all
            (fun e => e.chan != 7) = true)) :=
  ⟨⟨by decide, rfl, rfl, by decide, by decide⟩,
   waitBegin_overwrite_amended [(1, pendingState)] 1 pendingState 7 9
     (by decide) rfl rfl (by decide) (by decide)⟩

/-- C1: pool.go's `JoinGame` drops the requested size and komi, so
`startOwnGame` calls the board-engine constructor with size 0, which fails
`FieldSize`: with five idle players registered, every `joinGame` returns
`GamerGameStart`, no player is attached to any session, and zero (not three)
sessions exist. -/
theorem joinGame_size_dropped :
    (poolJ1.1 = .fail .GamerGameStart ∧ poolJ2.1 = .fail .GamerGameStart
     ∧ poolJ3.1 = .fail .GamerGameStart ∧ poolJ4.1 = .fail .GamerGameStart
     ∧ poolJ5.1 = .fail .GamerGameStart)
    ∧ (listGamers poolJ5.2.gamers).map Gamer.inGame
        = [none, none, none, none, none]
    ∧ poolJ5.2.sessions.length = 0 :=
  ⟨⟨rfl, rfl, rfl, rfl, rfl⟩, rfl, rfl⟩

end Gomaster
